import Mathlib

/-!
Shallow embedding of the data-preparation pipeline of the
`Consomation-electricite-france` repository, together with theorems about
the claims of its specification.

Conventions used throughout the embedding:
* a pandas `DataFrame` is a `List` of row structures, in row order;
* a float cell that may hold `NaN` is an `Option ℚ` (`none` = `NaN`);
  comparisons against `none` are `false`, exactly as NaN comparisons are in
  pandas, and `median` skips `none` cells as pandas `median` skips NaN;
* a timestamp is a `Nat` counting hours since 2026-01-01 00:00 (the first
  day of the data period used by the repository; 2026-01-01 is a Thursday,
  weekday 3 under the Monday=0 convention of `Timestamp.dayofweek`);
* a calendar date is a `Nat` counting days since 2026-01-01.
-/

/-- Sort a list of rationals ascending (the sort underlying pandas
`median`). -/
def sortQ (l : List ℚ) : List ℚ := l.insertionSort (· ≤ ·)

/-- Median of a sorted list of valid values: NaN for an empty list, the
middle element for an odd count, the average of the two middle elements
for an even count. -/
def medianSorted (vs : List ℚ) : Option ℚ :=
  if vs.length = 0 then none
  else if vs.length % 2 = 1 then vs.get? (vs.length / 2)
  else
    match vs.get? (vs.length / 2 - 1), vs.get? (vs.length / 2) with
    | some a, some b => some ((a + b) / 2)
    | _, _ => none

/-- Median of a float column, as pandas computes it: NaN cells are
skipped, the median of an empty column is NaN, and for an even count the
two middle values are averaged.  Mirrors `Series.median()`. -/
def median (col : List (Option ℚ)) : Option ℚ :=
  medianSorted (sortQ (col.filterMap id))

/-- Whether a cell is out of the declared `[lo, hi]` range.  Mirrors the
boolean masks `(df[col] < lo) | (df[col] > hi)` of `validate_meteo_data`
and `validate_prix_data`; a NaN cell compares `false` on both sides, so it
is never flagged. -/
def outOfRange (lo hi : ℚ) (c : Option ℚ) : Bool :=
  match c with
  | none => false
  | some v => decide (v < lo) || decide (hi < v)

/-- Range repair of one value column: every out-of-range cell is replaced
by the median of the column as it stands before any replacement.  Mirrors
`df.loc[invalid, col] = df[col].median()` — the right-hand side is
evaluated once, on the unrepaired column. -/
def rangeRepair (lo hi : ℚ) (col : List (Option ℚ)) : List (Option ℚ) :=
  col.map (fun c => if outOfRange lo hi c then median col else c)

/-- Last valid (non-NaN) cell at an index at or before `i`, with its
index.  Helper for linear interpolation. -/
def prevValid (col : List (Option ℚ)) : Nat → Option (Nat × ℚ)
  | 0 => (col.get? 0).bind (fun c => c.map (fun v => (0, v)))
  | i + 1 =>
    match (col.get? (i + 1)).bind id with
    | some v => some (i + 1, v)
    | none => prevValid col i

/-- First valid (non-NaN) cell of a list, with its index offset by
`base`.  Helper for linear interpolation. -/
def firstValidFrom : List (Option ℚ) → Nat → Option (Nat × ℚ)
  | [], _ => none
  | none :: rest, base => firstValidFrom rest (base + 1)
  | some v :: _, base => some (base, v)

/-- First valid cell strictly after index `i`. -/
def nextValid (col : List (Option ℚ)) (i : Nat) : Option (Nat × ℚ) :=
  firstValidFrom (col.drop (i + 1)) (i + 1)

/-- Value of cell `i` after `Series.interpolate(method="linear")`:
a valid cell is kept; a NaN cell between two valid anchors is linearly
interpolated by position; a NaN cell after the last valid anchor takes
that anchor value (pandas fills forward past the last valid entry); a NaN
cell before the first valid anchor stays NaN. -/
def interpCell (col : List (Option ℚ)) (i : Nat) : Option ℚ :=
  match (col.get? i).bind id with
  | some v => some v
  | none =>
    match prevValid col i, nextValid col i with
    | some (j, a), some (k, b) =>
      some (a + (b - a) * (((i : ℚ) - (j : ℚ)) / ((k : ℚ) - (j : ℚ))))
    | some (_, a), none => some a
    | none, _ => none

/-- Linear interpolation of a whole column, mirroring
`df[col].interpolate(method="linear")`. -/
def interpolateCol (col : List (Option ℚ)) : List (Option ℚ) :=
  (List.range col.length).map (interpCell col)

/-- One row of the weather table built by `get_meteo_data`:
`datetime, temperature, vent, ensoleillement`. -/
structure MeteoRow where
  datetime : Nat
  temperature : Option ℚ
  vent : Option ℚ
  ensoleillement : Option ℚ
  deriving Repr, DecidableEq

/-- Whether the weather frame has any missing value, mirroring
`df.isnull().sum()` / `missing.any()` (the `datetime` column is never
null). -/
def meteoHasMissing (df : List MeteoRow) : Bool :=
  df.any (fun r =>
    r.temperature.isNone || r.vent.isNone || r.ensoleillement.isNone)

/-- Rebuild weather rows from a datetime column and three value columns
of equal length (the inverse of splitting a frame into columns). -/
def zipMeteo : List Nat → List (Option ℚ) → List (Option ℚ) →
    List (Option ℚ) → List MeteoRow
  | dt :: dts, a :: as', b :: bs, c :: cs =>
    ⟨dt, a, b, c⟩ :: zipMeteo dts as' bs cs
  | _, _, _, _ => []

/-- Drop rows whose `datetime` already occurred earlier, keeping the first
occurrence.  Mirrors `df.drop_duplicates(subset=["datetime"])`. -/
def dedupByDatetime (key : α → Nat) : List α → List Nat → List α
  | [], _ => []
  | r :: rs, seen =>
    if key r ∈ seen then dedupByDatetime key rs seen
    else r :: dedupByDatetime key rs (key r :: seen)

/-- The interpolation and range-repair phases of `validate_meteo_data`:
interpolate the three value columns when any value is missing, then
repair out-of-range values (`temperature ∈ [-30, 50]`, `vent ∈ [0, 200]`,
`ensoleillement ∈ [0, 100]`) with the column median. -/
def repairMeteo (df : List MeteoRow) : List MeteoRow :=
  let dts := df.map (·.datetime)
  let t0 := df.map (·.temperature)
  let v0 := df.map (·.vent)
  let e0 := df.map (·.ensoleillement)
  let t1 := if meteoHasMissing df then interpolateCol t0 else t0
  let v1 := if meteoHasMissing df then interpolateCol v0 else v0
  let e1 := if meteoHasMissing df then interpolateCol e0 else e0
  zipMeteo dts (rangeRepair (-30) 50 t1) (rangeRepair 0 200 v1)
    (rangeRepair 0 100 e1)

/-- The weather Validator/Cleaner `validate_meteo_data`: interpolation,
range repair, then `drop_duplicates(subset=["datetime"])` keeping the
first occurrence. -/
def validate_meteo_data (df : List MeteoRow) : List MeteoRow :=
  dedupByDatetime (·.datetime) (repairMeteo df) []

/-- One row of the spot-price table built by `scrape_prix_spot_simule`:
`datetime, prix_spot_eur_mwh`. -/
structure PrixRow where
  datetime : Nat
  prix_spot_eur_mwh : Option ℚ
  deriving Repr, DecidableEq

/-- The missing-value and range-repair phases of `validate_prix_data`:
rows with a missing value are dropped (`df.dropna()`), then out-of-range
prices (outside `[0, 500]`) are repaired with the column median. -/
def repairPrix (df : List PrixRow) : List PrixRow :=
  let df1 :=
    if df.any (fun r => r.prix_spot_eur_mwh.isNone) then
      df.filter (fun r => r.prix_spot_eur_mwh.isSome)
    else df
  let col := rangeRepair 0 500 (df1.map (·.prix_spot_eur_mwh))
  List.zipWith (fun (r : PrixRow) c => PrixRow.mk r.datetime c) df1 col

/-- The price Validator/Cleaner `validate_prix_data`: missing-value drop,
range repair, then `drop_duplicates(subset=["datetime"])` keeping the
first occurrence. -/
def validate_prix_data (df : List PrixRow) : List PrixRow :=
  dedupByDatetime (·.datetime) (repairPrix df) []

/-- One sparse calendar event, a row of the frame handled by
`load_jours_feries.py`: a date, an optional label (`nom_ferie` is NaN when
the CSV cell is empty) and a type string (`"fixe"`, `"mobile"` or
`"vacances"`). -/
structure FerieRow where
  date : Nat
  nom_ferie : Option String
  type : String
  deriving Repr, DecidableEq

/-- Zero-based day-of-year of a 2026 date given as month and day, the
numeric image of the `pd.to_datetime("2026-mm-dd")` literals of the
source (2026 is not a leap year). -/
def doy (m d : Nat) : Nat :=
  (([31, 28, 31, 30, 31, 30, 31, 31, 30, 31, 30, 31].take (m - 1)).sum)
    + (d - 1)

/-- Daily date range, mirroring `pd.date_range(start, end, freq="D")`:
every day from `s` to `e` inclusive, and empty when `s > e`. -/
def dateRangeD (s e : Nat) : List Nat := List.range' s (e + 1 - s)

/-- The hard-coded 2026 vacation periods of
`enrich_with_vacances_scolaires`, as `(start, end, label)` day triples.
The last period is written in the source as
`("2026-12-19", "2026-01-03", "Vacances de Noël")`, whose end precedes its
start. -/
def vacances2026 : List (Nat × Nat × String) :=
  [(doy 2 21, doy 3 8, "Vacances d\x27hiver"),
   (doy 4 18, doy 5 3, "Vacances de printemps"),
   (doy 7 4, doy 8 31, "Vacances d\x27été"),
   (doy 10 24, doy 11 8, "Vacances de la Toussaint"),
   (doy 12 19, doy 1 3, "Vacances de Noël")]

/-- Vacation rows generated for one `(start, end, label)` period: one
`type="vacances"` row per day of `pd.date_range(start, end, freq="D")`. -/
def vacancesRowsFor (p : Nat × Nat × String) : List FerieRow :=
  (dateRangeD p.1 p.2.1).map (fun d => ⟨d, some p.2.2, "vacances"⟩)

/-- `enrich_with_vacances_scolaires`: append the generated vacation rows
to the loaded holiday rows and sort the result by date
(`sort_values("date")`). -/
def enrich_with_vacances_scolaires (df_feries : List FerieRow) :
    List FerieRow :=
  let df_vacances := vacances2026.flatMap vacancesRowsFor
  (df_feries ++ df_vacances).insertionSort (fun a b => a.date ≤ b.date)

/-- One row of the hourly skeleton built by `create_hourly_calendar`:
an hourly `datetime` and its day (`dt.date` truncation). -/
structure HourRow where
  datetime : Nat
  date : Nat
  deriving Repr, DecidableEq

/-- `create_hourly_calendar`: one row per hour of
`pd.date_range(start 00:00, end 23:00, freq="h")` over the day range
`[s, e]`, each carrying its truncated date. -/
def create_hourly_calendar (s e : Nat) : List HourRow :=
  (List.range' (24 * s) (24 * e + 24 - 24 * s)).map
    (fun h => ⟨h, h / 24⟩)

/-- Whether a type string marks a public holiday, mirroring
`(type == "fixe") | (type == "mobile")`. -/
def isFerieType (t : String) : Bool := t == "fixe" || t == "mobile"

/-- One row of the per-day aggregate `df_feries_agg` produced by
`groupby("date").agg(...)`. -/
structure AggRow where
  date : Nat
  est_ferie : Bool
  est_vacances : Bool
  nom_ferie : Option String
  deriving Repr, DecidableEq

/-- The sorted distinct group keys of `groupby("date")` (pandas sorts
group keys by default). -/
def groupKeys (feries : List FerieRow) : List Nat :=
  ((feries.map (·.date)).insertionSort (· ≤ ·)).dedup

/-- The per-day aggregate `df_feries_agg`: for each distinct date, the
group maximum of the boolean indicators (their OR) and the first
non-null `nom_ferie` of the group in row order (`agg` with `"max"`,
`"max"`, `"first"`; pandas `first` skips NaN). -/
def groupAgg (feries : List FerieRow) : List AggRow :=
  (groupKeys feries).map (fun d =>
    let g := feries.filter (fun r => r.date = d)
    ⟨d, g.any (fun r => isFerieType r.type),
      g.any (fun r => r.type == "vacances"),
      (g.filterMap (·.nom_ferie)).head?⟩)

/-- One row of the dense calendar table `calendrier_feries`. -/
structure CalRow where
  datetime : Nat
  date : Nat
  est_ferie : Bool
  est_vacances : Bool
  nom_ferie : String
  deriving Repr, DecidableEq

/-- `merge_calendar_with_feries`: left-join the hourly skeleton with the
per-day aggregate on `date` (the aggregate has unique dates, so the join
is 1:1) and resolve unmatched rows to
`est_ferie=false, est_vacances=false, nom_ferie=""` via `fillna`. -/
def merge_calendar_with_feries (df_calendar : List HourRow)
    (df_feries : List FerieRow) : List CalRow :=
  let agg := groupAgg df_feries
  df_calendar.map (fun c =>
    match agg.find? (fun a => a.date = c.date) with
    | some a =>
      ⟨c.datetime, c.date, a.est_ferie, a.est_vacances, a.nom_ferie.getD ""⟩
    | none => ⟨c.datetime, c.date, false, false, ""⟩)

/-- Weekday of an hourly timestamp under the pandas Monday=0 convention:
2026-01-01 (hour 0 of the embedding) is a Thursday, weekday 3. -/
def jourSemaine (dt : Nat) : Nat := (dt / 24 + 3) % 7

/-- Gregorian leap-year test. -/
def isLeapYear (y : Nat) : Bool :=
  (y % 4 == 0 && y % 100 != 0) || y % 400 == 0

/-- Number of days of a Gregorian year. -/
def daysInYear (y : Nat) : Nat := if isLeapYear y then 366 else 365

/-- Split a day count starting at year `y` into a year and a zero-based
day-of-year, with structural recursion on a fuel argument; since a year
has at least 365 days, `d + 1` steps of fuel always suffice. -/
def yearSplitAux : Nat → Nat → Nat → Nat × Nat
  | 0, y, d => (y, d)
  | fuel + 1, y, d =>
    if d < daysInYear y then (y, d)
    else yearSplitAux fuel (y + 1) (d - daysInYear y)

/-- Split a day count starting at year `y` into a year and a zero-based
day-of-year. -/
def yearSplit (y d : Nat) : Nat × Nat := yearSplitAux (d + 1) y d

/-- Month lengths of a year. -/
def monthLens (leap : Bool) : List Nat :=
  [31, if leap then 29 else 28, 31, 30, 31, 30, 31, 31, 30, 31, 30, 31]

/-- Split a zero-based day-of-year into a one-based month and day of
month by walking the month lengths. -/
def monthSplit : List Nat → Nat → Nat → Nat × Nat
  | [], m, d => (m, d + 1)
  | len :: rest, m, d =>
    if d < len then (m, d + 1) else monthSplit rest (m + 1) (d - len)

/-- Calendar month (1-12) of an hourly timestamp, the embedding of
`dt.month`. -/
def moisOf (dt : Nat) : Nat :=
  let yd := yearSplit 2026 (dt / 24)
  (monthSplit (monthLens (isLeapYear yd.1)) 1 yd.2).1

/-- Day of month (1-31) of an hourly timestamp, the embedding of
`dt.day`. -/
def jourMoisOf (dt : Nat) : Nat :=
  let yd := yearSplit 2026 (dt / 24)
  (monthSplit (monthLens (isLeapYear yd.1)) 1 yd.2).2

/-- One row of the `consommation` table read by `extract_data`. -/
structure ConsoRow where
  datetime : Nat
  mw_conso : ℚ
  deriving Repr, DecidableEq

/-- One row of the cleaned `meteo` table as the Fusion Engine reads it
from the database. -/
structure MeteoDbRow where
  datetime : Nat
  temperature : ℚ
  vent : ℚ
  ensoleillement : ℚ
  deriving Repr, DecidableEq

/-- One row of the first fusion result (`consommation ⋈ meteo`). -/
structure Merge1Row where
  datetime : Nat
  mw_conso : ℚ
  temperature : ℚ
  vent : ℚ
  ensoleillement : ℚ
  deriving Repr, DecidableEq

/-- One row after the second fusion (left join with the calendar): the
three calendar columns are nullable because a left join fills unmatched
rows with NaN. -/
structure Merge2Row where
  datetime : Nat
  mw_conso : ℚ
  temperature : ℚ
  vent : ℚ
  ensoleillement : ℚ
  est_ferie : Option Bool
  est_vacances : Option Bool
  nom_ferie : Option String
  deriving Repr, DecidableEq

/-- A `Merge2Row` extended with the five derived temporal features. -/
structure FeatRow where
  datetime : Nat
  mw_conso : ℚ
  temperature : ℚ
  vent : ℚ
  ensoleillement : ℚ
  est_ferie : Option Bool
  est_vacances : Option Bool
  nom_ferie : Option String
  heure : Nat
  jour_semaine : Nat
  mois : Nat
  jour_mois : Nat
  est_weekend : Bool
  deriving Repr, DecidableEq

/-- One row of the final fused table
`conso_meteo_calendrier_enrichi`. -/
structure FinalRow where
  datetime : Nat
  mw_conso : ℚ
  temperature : ℚ
  vent : ℚ
  ensoleillement : ℚ
  est_ferie : Bool
  est_vacances : Bool
  nom_ferie : String
  heure : Nat
  jour_semaine : Nat
  mois : Nat
  jour_mois : Nat
  est_weekend : Bool
  deriving Repr, DecidableEq

/-- Fusion step 1, `pd.merge(df_conso, df_meteo, on="datetime",
how="inner")`: each consumption row is paired with every weather row of
the same datetime, in left-key order; unmatched rows of either side are
dropped. -/
def innerMergeConsoMeteo (conso : List ConsoRow) (meteo : List MeteoDbRow) :
    List Merge1Row :=
  conso.flatMap (fun c =>
    (meteo.filter (fun m => m.datetime == c.datetime)).map (fun m =>
      ⟨c.datetime, c.mw_conso, m.temperature, m.vent, m.ensoleillement⟩))

/-- Fusion step 2, `pd.merge(df_merged, df_calendrier_mini, on="datetime",
how="left")` where `df_calendrier_mini` keeps the columns
`datetime, est_ferie, est_vacances, nom_ferie`: every left row survives;
a row with no calendar match gets NaN calendar columns. -/
def leftMergeCalendrier (rows : List Merge1Row) (cal : List CalRow) :
    List Merge2Row :=
  rows.flatMap (fun r =>
    let ms := cal.filter (fun k => k.datetime == r.datetime)
    if ms.isEmpty then
      [⟨r.datetime, r.mw_conso, r.temperature, r.vent, r.ensoleillement,
        none, none, none⟩]
    else
      ms.map (fun k =>
        ⟨r.datetime, r.mw_conso, r.temperature, r.vent, r.ensoleillement,
          some k.est_ferie, some k.est_vacances, some k.nom_ferie⟩))

/-- Derivation of the five temporal features from `datetime`
(`heure, jour_semaine, mois, jour_mois, est_weekend`). -/
def addFeatures (r : Merge2Row) : FeatRow :=
  ⟨r.datetime, r.mw_conso, r.temperature, r.vent, r.ensoleillement,
    r.est_ferie, r.est_vacances, r.nom_ferie,
    r.datetime % 24, jourSemaine r.datetime, moisOf r.datetime,
    jourMoisOf r.datetime, decide (5 ≤ jourSemaine r.datetime)⟩

/-- Whether a fused row still has a missing value; in the embedding the
only nullable columns are the three calendar columns. -/
def rowHasMissing (r : FeatRow) : Bool :=
  r.est_ferie.isNone || r.est_vacances.isNone || r.nom_ferie.isNone

/-- The Fusion Engine `transform_data`: inner join with weather, left
join with the calendar, drop of redundant columns (their fields are
simply not carried over), temporal features, `df.dropna()` when any
value is missing, then `fillna` of the calendar columns with
`False`/`False`/`""`. -/
def transform_data (df_conso : List ConsoRow) (df_meteo : List MeteoDbRow)
    (df_calendrier : List CalRow) : List FinalRow :=
  let m1 := innerMergeConsoMeteo df_conso df_meteo
  let m2 := leftMergeCalendrier m1 df_calendrier
  let m3 := m2.map addFeatures
  let m4 :=
    if m3.any rowHasMissing then m3.filter (fun r => !rowHasMissing r)
    else m3
  m4.map (fun r =>
    ⟨r.datetime, r.mw_conso, r.temperature, r.vent, r.ensoleillement,
      r.est_ferie.getD false, r.est_vacances.getD false,
      r.nom_ferie.getD "", r.heure, r.jour_semaine, r.mois, r.jour_mois,
      r.est_weekend⟩)

/-- The database the pipeline reads and writes: the three upstream tables
(each possibly absent), the named tables written by `to_sql` with
`if_exists="replace"`, and the flat CSV exports mirrored under
`data/<table>.csv`. -/
structure Database where
  consommation : Option (List ConsoRow)
  meteo : Option (List MeteoDbRow)
  calendrier_feries : Option (List CalRow)
  tables : List (String × List FinalRow)
  csv : List (String × List FinalRow)
  deriving Repr, DecidableEq

/-- Replace semantics of `to_sql(..., if_exists="replace")` on a named
store: any previous binding of the name is removed and the new table is
bound. -/
def insertReplace (m : List (String × List FinalRow)) (k : String)
    (v : List FinalRow) : List (String × List FinalRow) :=
  (k, v) :: m.filter (fun p => p.1 != k)

/-- `extract_data`: reads `consommation` (no exception handler: an absent
table is an uncaught error), then `meteo` and `calendrier_feries`, each
of which turns an absent table into the `(None, None, None)` triple plus
an actionable message naming the producing script.  The returned list
collects the printed hint messages. -/
def extract_data (db : Database) :
    Except Unit
      (Option (List ConsoRow) × Option (List MeteoDbRow) ×
        Option (List CalRow) × List String) :=
  match db.consommation with
  | none => .error ()
  | some dfc =>
    match db.meteo with
    | none =>
      .ok (none, none, none,
        ["Exécuter d\x27abord: python src/collect_meteo.py"])
    | some dfm =>
      match db.calendrier_feries with
      | none =>
        .ok (none, none, none,
          ["Exécuter d\x27abord: python src/load_jours_feries.py"])
      | some dfcal => .ok (some dfc, some dfm, some dfcal, [])

/-- `load_data`: write the fused frame under `table_name` with replace
semantics, read back the row count, and mirror the frame to the CSV
export keyed by the same name.  Returns the new database state and the
read-back count. -/
def load_data (db : Database) (df : List FinalRow) (table_name : String) :
    Database × Nat :=
  let db1 := { db with tables := insertReplace db.tables table_name df }
  let count := ((db1.tables.lookup table_name).getD []).length
  let db2 := { db1 with csv := insertReplace db1.csv table_name df }
  (db2, count)

/-- `run_etl_pipeline`: extract, then either abort with `False` (process
exit code 1) when a source table is missing — leaving the database
untouched — or transform and load the fused table under
`conso_meteo_calendrier_enrichi` and return `True`.  The list collects
the user-visible error messages of the run. -/
def run_etl_pipeline (db : Database) :
    Except Unit (Bool × Database × List String) :=
  match extract_data db with
  | .error e => .error e
  | .ok (oc, om, ocal, log) =>
    match oc, om, ocal with
    | some dfc, some dfm, some dfcal =>
      let fused := transform_data dfc dfm dfcal
      let dbc := load_data db fused "conso_meteo_calendrier_enrichi"
      .ok (true, dbc.1, log)
    | _, _, _ =>
      .ok (false, db, log ++ ["ERREUR: Données source manquantes"])

/-- State of the `numpy.random` global generator: the seed it was last
seeded with and how many draws were consumed since. -/
structure RngState where
  seed : Nat
  counter : Nat
  deriving Repr, DecidableEq

/-- `np.random.seed(s)`: reset the global generator. -/
def np_random_seed (s : Nat) : RngState := ⟨s, 0⟩

/-- One draw of `np.random.normal(0, 10)` under a draw interpretation
`ψ`: `ψ seed i` is the value of the i-th draw after seeding with
`seed`.  The state advances by one draw. -/
def np_random_normal (ψ : Nat → Nat → ℚ) (st : RngState) : ℚ × RngState :=
  (ψ st.seed st.counter, ⟨st.seed, st.counter + 1⟩)

/-- The base price constant of `scrape_prix_spot_simule`. -/
def prix_base : ℚ := 80

/-- The 24-entry hourly price profile
`[prix_base + 20 * (1 if 8 <= h <= 20 else 0.5) for h in range(24)]`. -/
def variation_horaire : List ℚ :=
  (List.range 24).map (fun h =>
    prix_base + 20 * (if 8 ≤ h ∧ h ≤ 20 then 1 else (1 : ℚ) / 2))

/-- Round-half-even of a rational, the rounding mode of numpy/pandas
`round`. -/
def roundHalfEven (x : ℚ) : ℤ :=
  let n := ⌊x⌋
  if x - n < 1 / 2 then n
  else if 1 / 2 < x - n then n + 1
  else if n % 2 = 0 then n else n + 1

/-- `Series.round(2)` on one value: round half-even at two decimals. -/
def round2 (x : ℚ) : ℚ := (roundHalfEven (x * 100) : ℚ) / 100

/-- The per-hour loop body of `scrape_prix_spot_simule`: hourly profile
price, one normal draw, weekend discount of 15 percent, and the
30 EUR/MWh floor.  Returns the raw prices in hour order together with
the final generator state. -/
def scrapeLoop (ψ : Nat → Nat → ℚ) :
    List Nat → RngState → List (Nat × ℚ) × RngState
  | [], st => ([], st)
  | dt :: rest, st =>
    let heure := dt % 24
    let prix_heure := variation_horaire.getD heure 0
    let draw := np_random_normal ψ st
    let prix_heure2 :=
      if 5 ≤ jourSemaine dt then prix_heure * (85 / 100) else prix_heure
    let prix_final := max 30 (prix_heure2 + draw.1)
    let restOut := scrapeLoop ψ rest draw.2
    ((dt, prix_final) :: restOut.1, restOut.2)

/-- `scrape_prix_spot_simule` over the hour range
`pd.date_range(start_date, end_date, freq="h")` (hours
`startHour..endHour` inclusive): the function first executes
`np.random.seed(42)`, discarding whatever global generator state `_st`
it was invoked under, generates one price per hour and rounds it to two
decimals. -/
def scrape_prix_spot_simule (ψ : Nat → Nat → ℚ)
    (startHour endHour : Nat) (_st : RngState) :
    List PrixRow × RngState :=
  let st0 := np_random_seed 42
  let raw := scrapeLoop ψ (List.range' startHour (endHour + 1 - startHour)) st0
  (raw.1.map (fun p => ⟨p.1, some (round2 p.2)⟩), raw.2)

/-- Whether a cell lies inside the declared `[lo, hi]` range; a NaN cell
carries no value and so has no out-of-range value. -/
def inRangeCell (lo hi : ℚ) (c : Option ℚ) : Bool :=
  match c with
  | none => true
  | some v => decide (lo ≤ v) && decide (v ≤ hi)

/-- No missing value in any of the three weather value columns. -/
def meteoNoMissing (df : List MeteoRow) : Bool :=
  df.all (fun r =>
    r.temperature.isSome && r.vent.isSome && r.ensoleillement.isSome)

/-- Every weather value inside its declared valid range. -/
def meteoInRange (df : List MeteoRow) : Bool :=
  df.all (fun r =>
    inRangeCell (-30) 50 r.temperature && inRangeCell 0 200 r.vent &&
      inRangeCell 0 100 r.ensoleillement)

/-- No missing value in the price value column. -/
def prixNoMissing (df : List PrixRow) : Bool :=
  df.all (fun r => r.prix_spot_eur_mwh.isSome)

/-- Every price inside the declared `[0, 500]` range. -/
def prixInRange (df : List PrixRow) : Bool :=
  df.all (fun r => inRangeCell 0 500 r.prix_spot_eur_mwh)

/-- Whether the median of a column, when it exists, lies inside
`[lo, hi]`. -/
def medOKb (lo hi : ℚ) (col : List (Option ℚ)) : Bool :=
  match median col with
  | none => true
  | some q => decide (lo ≤ q) && decide (q ≤ hi)

/-!
Helper lemmas shared by the claim theorems.
-/

/-- Looking a key up right after an `insertReplace` of that key returns
the value just written. -/
lemma lookup_insertReplace (m : List (String × List FinalRow)) (k : String)
    (v : List FinalRow) : (insertReplace m k v).lookup k = some v := by
  simp [insertReplace, List.lookup]

/-- Writing the same value under the same key twice is the same as
writing it once. -/
lemma insertReplace_idem (m : List (String × List FinalRow)) (k : String)
    (v : List FinalRow) :
    insertReplace (insertReplace m k v) k v = insertReplace m k v := by
  simp only [insertReplace, List.filter_cons]
  simp [List.filter_filter]

/-- The claim C9 statement on the Sink: persisting a table twice under
one identity leaves both the database store and the CSV mirror exactly as
one persist does, and the read-back count after a persist equals the
table's own row count, not its double. -/
theorem load_data_idempotent (db : Database) (df : List FinalRow)
    (table_name : String) :
    (load_data (load_data db df table_name).1 df table_name).1
        = (load_data db df table_name).1
    ∧ (load_data db df table_name).2 = df.length := by
  constructor
  · simp [load_data, insertReplace_idem]
  · simp [load_data, lookup_insertReplace]

/-- The claim C7 amended statement on the simulated price scraper: the
output table is independent of the global generator state the scraper is
invoked under — in particular two invocations in succession over the same
date range return identical tables — because the function begins with
`np.random.seed(42)` and therefore always consumes the same draw
sequence, for every interpretation `ψ` of the seeded normal draws. -/
theorem scrape_prix_spot_simule_deterministic (ψ : Nat → Nat → ℚ)
    (startHour endHour : Nat) (st st' : RngState) :
    (scrape_prix_spot_simule ψ startHour endHour st).1
      = (scrape_prix_spot_simule ψ startHour endHour st').1 :=
  rfl

/-- The claim C7 counterexample: at a concrete draw interpretation, a
concrete date range and a concrete pair of successive invocations (the
second one starting from the generator state the first one left behind),
the two scraped tables are equal — the scraper cannot produce different
value tables for the same date range. -/
theorem scrape_prix_spot_simule_two_runs_equal :
    (scrape_prix_spot_simule (fun s i => (s : ℚ) + i) 0 3 ⟨7, 5⟩).1 =
      (scrape_prix_spot_simule (fun s i => (s : ℚ) + i) 0 3
        (scrape_prix_spot_simule (fun s i => (s : ℚ) + i) 0 3 ⟨7, 5⟩).2).1 :=
  rfl

/-- The claim C1 failing run: fused consumption/weather rows exist for
hours 1 and 2 (the first join produces 2 rows, and the left join with an
empty calendar keeps both), yet `transform_data` returns the empty table:
the `df.dropna()` executed before the calendar `fillna` removes every row
whose calendar flags are missing, instead of resolving them to
`est_ferie=false, est_vacances=false, nom_ferie=""`. -/
theorem transform_data_drops_rows_missing_calendar :
    (leftMergeCalendrier (innerMergeConsoMeteo [⟨1, 100⟩, ⟨2, 110⟩]
        [⟨1, 5, 10, 50⟩, ⟨2, 6, 11, 60⟩]) []).length = 2
    ∧ transform_data [⟨1, 100⟩, ⟨2, 110⟩]
        [⟨1, 5, 10, 50⟩, ⟨2, 6, 11, 60⟩] [] = [] := by
  decide

/-- The claim C3 statement on range repair: an out-of-range cell is
replaced by the median of the entire column as it stood before any
replacement (outliers included), an in-range or NaN cell is kept
unchanged, and on the column `[10, 10, 10, 1000]` with valid range
`[0, 100]` the `1000` becomes `10`, the median of the original column. -/
theorem rangeRepair_replaces_with_premedian :
    (∀ (lo hi : ℚ) (col : List (Option ℚ)) (i : Nat) (v : ℚ),
        col.get? i = some (some v) → (v < lo ∨ hi < v) →
        (rangeRepair lo hi col).get? i = some (median col))
    ∧ (∀ (lo hi : ℚ) (col : List (Option ℚ)) (i : Nat) (c : Option ℚ),
        col.get? i = some c → outOfRange lo hi c = false →
        (rangeRepair lo hi col).get? i = some c)
    ∧ rangeRepair 0 100 [some 10, some 10, some 10, some 1000]
        = [some 10, some 10, some 10, some 10] := by
  refine ⟨?_, ?_, ?_⟩
  · intro lo hi col i v hget hout
    have hflag : outOfRange lo hi (some v) = true := by
      rcases hout with h | h <;> simp [outOfRange, h]
    rw [List.get?_eq_getElem?] at hget
    rw [rangeRepair, List.get?_eq_getElem?, List.getElem?_map, hget]
    simp [hflag]
  · intro lo hi col i c hget hflag
    rw [List.get?_eq_getElem?] at hget
    rw [rangeRepair, List.get?_eq_getElem?, List.getElem?_map, hget]
    simp [hflag]
  · norm_num [rangeRepair, outOfRange, median, medianSorted, sortQ,
      List.insertionSort, List.orderedInsert]

/-- Witness for C3: the single-cell column `[1000]` with range `[0, 100]`
is out of range at index 0 and is replaced by the pre-repair median. -/
theorem rangeRepair_replaces_with_premedian_witness :
    (rangeRepair 0 100 [some 1000]).get? 0 = some (median [some 1000]) :=
  rangeRepair_replaces_with_premedian.1 0 100 [some 1000] 0 1000 rfl
    (Or.inr (by norm_num))

/-- A column containing at least one valid value has a valid median. -/
lemma median_isSome (col : List (Option ℚ)) (v : ℚ) (hv : some v ∈ col) :
    ∃ q, median col = some q := by
  have hvmem : v ∈ col.filterMap id :=
    List.mem_filterMap.2 ⟨some v, hv, rfl⟩
  have hlen : 0 < (sortQ (col.filterMap id)).length := by
    have hperm :=
      (List.perm_insertionSort (fun a b : ℚ => a ≤ b) (col.filterMap id)).length_eq
    have hpos := List.length_pos_of_mem hvmem
    simpa [sortQ, hperm] using hpos
  rw [median, medianSorted]
  set vs := sortQ (col.filterMap id) with hvs
  rw [if_neg (by omega)]
  by_cases hpar : vs.length % 2 = 1
  · rw [if_pos hpar]
    cases hget : vs.get? (vs.length / 2) with
    | none =>
      rw [List.get?_eq_none] at hget
      have : vs.length / 2 < vs.length := Nat.div_lt_self hlen (by norm_num)
      omega
    | some q => exact ⟨q, rfl⟩
  · rw [if_neg hpar]
    have hB : vs.length / 2 < vs.length := Nat.div_lt_self hlen (by norm_num)
    have hA : vs.length / 2 - 1 < vs.length := by omega
    cases hgA : vs.get? (vs.length / 2 - 1) with
    | none => rw [List.get?_eq_none] at hgA; omega
    | some a =>
      cases hgB : vs.get? (vs.length / 2) with
      | none => rw [List.get?_eq_none] at hgB; omega
      | some b => exact ⟨(a + b) / 2, rfl⟩

/-- Range repair keeps a column of valid cells valid: an in-range cell is
kept, and an out-of-range cell is replaced by the (valid) median. -/
lemma rangeRepair_isSome (lo hi : ℚ) (col : List (Option ℚ))
    (hall : ∀ c ∈ col, c.isSome = true) :
    ∀ c ∈ rangeRepair lo hi col, c.isSome = true := by
  intro c hc
  rw [rangeRepair, List.mem_map] at hc
  obtain ⟨a, ha, rfl⟩ := hc
  by_cases hflag : outOfRange lo hi a = true
  · cases a with
    | none => simp [outOfRange] at hflag
    | some v =>
      obtain ⟨q, hq⟩ := median_isSome col v ha
      simp [hflag, hq]
  · have hflag' : outOfRange lo hi a = false := by
      simpa using hflag
    simpa [hflag'] using hall a ha

/-- Every cell of a range-repaired column is inside the range, provided
the median of the unrepaired column is (a NaN cell carries no value and
is vacuously inside). -/
lemma rangeRepair_inRange (lo hi : ℚ) (col : List (Option ℚ))
    (hmed : medOKb lo hi col = true) :
    ∀ c ∈ rangeRepair lo hi col, inRangeCell lo hi c = true := by
  intro c hc
  rw [rangeRepair, List.mem_map] at hc
  obtain ⟨a, ha, rfl⟩ := hc
  by_cases hflag : outOfRange lo hi a = true
  · cases a with
    | none => simp [outOfRange] at hflag
    | some v =>
      obtain ⟨q, hq⟩ := median_isSome col v ha
      rw [medOKb, hq] at hmed
      simp at hmed
      simp [hflag, hq, inRangeCell, hmed.1, hmed.2]
  · have hflag' : outOfRange lo hi a = false := by
      simpa using hflag
    rw [if_neg (by simp [hflag'])]
    cases a with
    | none => simp [inRangeCell]
    | some v =>
      simp only [outOfRange, Bool.or_eq_false_iff, decide_eq_false_iff_not]
        at hflag'
      simp only [inRangeCell, Bool.and_eq_true, decide_eq_true_eq]
      exact ⟨le_of_not_lt hflag'.1, le_of_not_lt hflag'.2⟩

/-- Deduplication only returns rows of its input. -/
lemma dedupByDatetime_subset {α : Type} (key : α → Nat) :
    ∀ (l : List α) (seen : List Nat), ∀ x ∈ dedupByDatetime key l seen, x ∈ l := by
  intro l
  induction l with
  | nil => intro seen x hx; simp [dedupByDatetime] at hx
  | cons r rs ih =>
    intro seen x hx
    by_cases hin : key r ∈ seen
    · rw [dedupByDatetime, if_pos hin] at hx
      exact List.mem_cons_of_mem _ (ih _ _ hx)
    · rw [dedupByDatetime, if_neg hin] at hx
      rcases List.mem_cons.1 hx with h | h
      · exact h ▸ List.mem_cons_self _ _
      · exact List.mem_cons_of_mem _ (ih _ _ h)

/-- Deduplication produces pairwise distinct keys, and never returns a
row whose key was already seen. -/
lemma dedupByDatetime_nodup {α : Type} (key : α → Nat) :
    ∀ (l : List α) (seen : List Nat),
      ((dedupByDatetime key l seen).map key).Nodup
      ∧ ∀ x ∈ dedupByDatetime key l seen, key x ∉ seen := by
  intro l
  induction l with
  | nil => intro seen; simp [dedupByDatetime]
  | cons r rs ih =>
    intro seen
    by_cases hin : key r ∈ seen
    · rw [dedupByDatetime, if_pos hin]
      exact ih seen
    · rw [dedupByDatetime, if_neg hin]
      refine ⟨?_, ?_⟩
      · rw [List.map_cons, List.nodup_cons]
        refine ⟨?_, (ih (key r :: seen)).1⟩
        intro hmem
        rw [List.mem_map] at hmem
        obtain ⟨x, hx, hkey⟩ := hmem
        exact (ih (key r :: seen)).2 x hx (hkey ▸ List.mem_cons_self _ _)
      · intro x hx
        rcases List.mem_cons.1 hx with h | h
        · exact h ▸ hin
        · intro hmem
          exact (ih (key r :: seen)).2 x h (List.mem_cons_of_mem _ hmem)

/-- Deduplication keeps the first row of each key: searching the
deduplicated list for a key not yet seen finds the same row as searching
the original list. -/
lemma dedupByDatetime_find {α : Type} (key : α → Nat) :
    ∀ (l : List α) (seen : List Nat) (d : Nat), d ∉ seen →
      (dedupByDatetime key l seen).find? (fun r => key r == d)
        = l.find? (fun r => key r == d) := by
  intro l
  induction l with
  | nil => intro seen d hd; simp [dedupByDatetime]
  | cons r rs ih =>
    intro seen d hd
    by_cases hin : key r ∈ seen
    · rw [dedupByDatetime, if_pos hin]
      have hne : ¬ (key r == d) = true := by
        simp only [beq_iff_eq]
        intro h; exact hd (h ▸ hin)
      rw [@List.find?_cons_of_neg _ (fun r => key r == d) r rs hne]
      exact ih seen d hd
    · rw [dedupByDatetime, if_neg hin]
      by_cases heq : (key r == d) = true
      · rw [@List.find?_cons_of_pos _ (fun r => key r == d) r
            (dedupByDatetime key rs (key r :: seen)) heq,
          @List.find?_cons_of_pos _ (fun r => key r == d) r rs heq]
      · rw [@List.find?_cons_of_neg _ (fun r => key r == d) r
            (dedupByDatetime key rs (key r :: seen)) heq,
          @List.find?_cons_of_neg _ (fun r => key r == d) r rs heq]
        apply ih
        simp only [List.mem_cons, not_or]
        refine ⟨?_, hd⟩
        simp only [beq_iff_eq] at heq
        exact fun h => heq h.symm

/-- A row of a rebuilt weather frame takes each value field from the
corresponding column. -/
lemma zipMeteo_mem :
    ∀ (dts : List Nat) (ta va ea : List (Option ℚ)) (r : MeteoRow),
      r ∈ zipMeteo dts ta va ea →
      r.temperature ∈ ta ∧ r.vent ∈ va ∧ r.ensoleillement ∈ ea := by
  intro dts
  induction dts with
  | nil => intro ta va ea r hr; simp [zipMeteo] at hr
  | cons dt dts ih =>
    intro ta va ea r hr
    cases ta with
    | nil => simp [zipMeteo] at hr
    | cons a ta =>
      cases va with
      | nil => simp [zipMeteo] at hr
      | cons b va =>
        cases ea with
        | nil => simp [zipMeteo] at hr
        | cons c ea =>
          rw [zipMeteo] at hr
          rcases List.mem_cons.1 hr with h | h
          · subst h
            exact ⟨List.mem_cons_self _ _, List.mem_cons_self _ _,
              List.mem_cons_self _ _⟩
          · obtain ⟨h1, h2, h3⟩ := ih ta va ea r h
            exact ⟨List.mem_cons_of_mem _ h1, List.mem_cons_of_mem _ h2,
              List.mem_cons_of_mem _ h3⟩

/-- A member of a zipped list is the image of members of the two input
lists. -/
lemma mem_zipWith {α β γ : Type} (f : α → β → γ) :
    ∀ (l₁ : List α) (l₂ : List β) (c : γ), c ∈ List.zipWith f l₁ l₂ →
      ∃ a b, a ∈ l₁ ∧ b ∈ l₂ ∧ c = f a b := by
  intro l₁
  induction l₁ with
  | nil => intro l₂ c hc; simp at hc
  | cons a l ih =>
    intro l₂ c hc
    cases l₂ with
    | nil => simp at hc
    | cons b l₂ =>
      simp only [List.zipWith_cons_cons] at hc
      rcases List.mem_cons.1 hc with h | h
      · exact ⟨a, b, List.mem_cons_self _ _, List.mem_cons_self _ _, h⟩
      · obtain ⟨a', b', ha, hb, rfl⟩ := ih l₂ c h
        exact ⟨a', b', List.mem_cons_of_mem _ ha,
          List.mem_cons_of_mem _ hb, rfl⟩

/-- Dropping the rows whose projected cell is NaN does not change the
valid cells of the projected column. -/
lemma filterMap_filter_isSome {α β : Type} (p : α → Option β) :
    ∀ l : List α,
      (((l.filter (fun r => (p r).isSome)).map p).filterMap id)
        = ((l.map p).filterMap id) := by
  intro l
  induction l with
  | nil => simp
  | cons a l ih =>
    by_cases h : (p a).isSome = true
    · obtain ⟨b, hb⟩ := Option.isSome_iff_exists.1 h
      simp [List.filter_cons, h, hb, ih]
    · have hnone : p a = none := Option.not_isSome_iff_eq_none.1 h
      simp [List.filter_cons, h, hnone, ih]

/-- The median only depends on the valid cells of a column. -/
lemma median_congr {c1 c2 : List (Option ℚ)}
    (h : c1.filterMap id = c2.filterMap id) : median c1 = median c2 := by
  rw [median, median, h]

/-- The median-in-range test only depends on the valid cells of a
column. -/
lemma medOKb_congr (lo hi : ℚ) {c1 c2 : List (Option ℚ)}
    (h : c1.filterMap id = c2.filterMap id) :
    medOKb lo hi c1 = medOKb lo hi c2 := by
  rw [medOKb, medOKb, median_congr h]

/-- The claim C2 counterexample: on the weather frame with datetimes
`0..3`, temperature column `[NaN, 1000, 1000, 1000]` and in-range other
columns, the cleaned output still has a missing temperature (the leading
NaN has no earlier anchor, so interpolation leaves it) and still has
out-of-range temperatures (the repair median of `[1000, 1000, 1000]` is
itself out of range), refuting both the no-missing-value and the
no-out-of-range clause of the claimed postcondition. -/
theorem validate_meteo_data_guarantee_fails :
    meteoNoMissing (validate_meteo_data
      [⟨0, none, some 10, some 50⟩, ⟨1, some 1000, some 10, some 50⟩,
       ⟨2, some 1000, some 10, some 50⟩, ⟨3, some 1000, some 10, some 50⟩])
        = false
    ∧ meteoInRange (validate_meteo_data
      [⟨0, none, some 10, some 50⟩, ⟨1, some 1000, some 10, some 50⟩,
       ⟨2, some 1000, some 10, some 50⟩, ⟨3, some 1000, some 10, some 50⟩])
        = false := by
  decide

/-- The claim C2 amended statement on the Validator/Cleaner: the cleaned
output always has unique timestamps, keeping the first repaired row per
timestamp; the price cleaner always removes every missing value (it uses
`dropna`); the weather cleaner guarantees no missing and no out-of-range
value provided the input had no missing value and each column's
pre-repair median lies in the declared range; and the price cleaner
guarantees no out-of-range value provided the price median lies in
`[0, 500]`. -/
theorem validators_postconditions (dfM : List MeteoRow) (dfP : List PrixRow) :
    ((validate_meteo_data dfM).map (fun r => r.datetime)).Nodup
    ∧ ((validate_prix_data dfP).map (fun r => r.datetime)).Nodup
    ∧ (∀ d : Nat, (validate_meteo_data dfM).find? (fun r => r.datetime == d)
        = (repairMeteo dfM).find? (fun r => r.datetime == d))
    ∧ (∀ d : Nat, (validate_prix_data dfP).find? (fun r => r.datetime == d)
        = (repairPrix dfP).find? (fun r => r.datetime == d))
    ∧ prixNoMissing (validate_prix_data dfP) = true
    ∧ (meteoNoMissing dfM = true →
        medOKb (-30) 50 (dfM.map (fun r => r.temperature)) = true →
        medOKb 0 200 (dfM.map (fun r => r.vent)) = true →
        medOKb 0 100 (dfM.map (fun r => r.ensoleillement)) = true →
        meteoNoMissing (validate_meteo_data dfM) = true
        ∧ meteoInRange (validate_meteo_data dfM) = true)
    ∧ (medOKb 0 500 (dfP.map (fun r => r.prix_spot_eur_mwh)) = true →
        prixInRange (validate_prix_data dfP) = true) := by
  refine ⟨?_, ?_, ?_, ?_, ?_, ?_, ?_⟩
  · exact (dedupByDatetime_nodup _ (repairMeteo dfM) []).1
  · exact (dedupByDatetime_nodup _ (repairPrix dfP) []).1
  · intro d
    exact dedupByDatetime_find _ (repairMeteo dfM) [] d (by simp)
  · intro d
    exact dedupByDatetime_find _ (repairPrix dfP) [] d (by simp)
  · rw [prixNoMissing, List.all_eq_true]
    intro r hr
    have hr' : r ∈ repairPrix dfP := dedupByDatetime_subset _ _ _ r hr
    by_cases hany : dfP.any (fun x => x.prix_spot_eur_mwh.isNone) = true
    · simp only [repairPrix, if_pos hany] at hr'
      obtain ⟨a, b, ha, hb, rfl⟩ := mem_zipWith _ _ _ _ hr'
      refine rangeRepair_isSome 0 500 _ ?_ b hb
      intro c hc
      rw [List.mem_map] at hc
      obtain ⟨x, hx, rfl⟩ := hc
      simpa using (List.mem_filter.1 hx).2
    · simp only [repairPrix, if_neg hany] at hr'
      obtain ⟨a, b, ha, hb, rfl⟩ := mem_zipWith _ _ _ _ hr'
      refine rangeRepair_isSome 0 500 _ ?_ b hb
      intro c hc
      rw [List.mem_map] at hc
      obtain ⟨x, hx, rfl⟩ := hc
      have hany' : dfP.any (fun x => x.prix_spot_eur_mwh.isNone) = false := by
        simpa using hany
      rw [List.any_eq_false] at hany'
      have hno := hany' x hx
      cases hopt : x.prix_spot_eur_mwh with
      | none => rw [hopt] at hno; simp at hno
      | some v => simp [hopt]
  · intro hnm h1 h2 h3
    have hall := List.all_eq_true.1 hnm
    have hmiss : meteoHasMissing dfM = false := by
      rw [meteoHasMissing, List.any_eq_false]
      intro x hx
      have hx' := hall x hx
      simp only [Bool.and_eq_true] at hx'
      obtain ⟨⟨ht, hv⟩, he⟩ := hx'
      obtain ⟨ta, hta⟩ := Option.isSome_iff_exists.1 ht
      obtain ⟨va, hva⟩ := Option.isSome_iff_exists.1 hv
      obtain ⟨ea, hea⟩ := Option.isSome_iff_exists.1 he
      simp [hta, hva, hea]
    have hrep : repairMeteo dfM = zipMeteo (dfM.map (fun r => r.datetime))
        (rangeRepair (-30) 50 (dfM.map (fun r => r.temperature)))
        (rangeRepair 0 200 (dfM.map (fun r => r.vent)))
        (rangeRepair 0 100 (dfM.map (fun r => r.ensoleillement))) := by
      simp only [repairMeteo, hmiss, Bool.false_eq_true, if_false]
    have hallT : ∀ c ∈ dfM.map (fun r => r.temperature), c.isSome = true := by
      intro c hc
      rw [List.mem_map] at hc
      obtain ⟨x, hx, rfl⟩ := hc
      have hx' := hall x hx
      simp only [Bool.and_eq_true] at hx'
      exact hx'.1.1
    have hallV : ∀ c ∈ dfM.map (fun r => r.vent), c.isSome = true := by
      intro c hc
      rw [List.mem_map] at hc
      obtain ⟨x, hx, rfl⟩ := hc
      have hx' := hall x hx
      simp only [Bool.and_eq_true] at hx'
      exact hx'.1.2
    have hallE : ∀ c ∈ dfM.map (fun r => r.ensoleillement), c.isSome = true := by
      intro c hc
      rw [List.mem_map] at hc
      obtain ⟨x, hx, rfl⟩ := hc
      have hx' := hall x hx
      simp only [Bool.and_eq_true] at hx'
      exact hx'.2
    constructor
    · rw [meteoNoMissing, List.all_eq_true]
      intro r hr
      have hr' : r ∈ repairMeteo dfM := dedupByDatetime_subset _ _ _ r hr
      rw [hrep] at hr'
      obtain ⟨hT, hV, hE⟩ := zipMeteo_mem _ _ _ _ r hr'
      have h1' := rangeRepair_isSome _ _ _ hallT _ hT
      have h2' := rangeRepair_isSome _ _ _ hallV _ hV
      have h3' := rangeRepair_isSome _ _ _ hallE _ hE
      simp [h1', h2', h3']
    · rw [meteoInRange, List.all_eq_true]
      intro r hr
      have hr' : r ∈ repairMeteo dfM := dedupByDatetime_subset _ _ _ r hr
      rw [hrep] at hr'
      obtain ⟨hT, hV, hE⟩ := zipMeteo_mem _ _ _ _ r hr'
      have h1' := rangeRepair_inRange _ _ _ h1 _ hT
      have h2' := rangeRepair_inRange _ _ _ h2 _ hV
      have h3' := rangeRepair_inRange _ _ _ h3 _ hE
      simp [h1', h2', h3']
  · intro hmed
    rw [prixInRange, List.all_eq_true]
    intro r hr
    have hr' : r ∈ repairPrix dfP := dedupByDatetime_subset _ _ _ r hr
    by_cases hany : dfP.any (fun x => x.prix_spot_eur_mwh.isNone) = true
    · simp only [repairPrix, if_pos hany] at hr'
      obtain ⟨a, b, ha, hb, rfl⟩ := mem_zipWith _ _ _ _ hr'
      refine rangeRepair_inRange 0 500 _ ?_ b hb
      have hfil :=
        filterMap_filter_isSome (fun r : PrixRow => r.prix_spot_eur_mwh) dfP
      rw [medOKb_congr 0 500 hfil]
      exact hmed
    · simp only [repairPrix, if_neg hany] at hr'
      obtain ⟨a, b, ha, hb, rfl⟩ := mem_zipWith _ _ _ _ hr'
      exact rangeRepair_inRange 0 500 _ hmed b hb

/-- Witness for the amended C2 statement: a one-row weather frame and a
one-row price frame with no missing value and in-range medians satisfy
all cleaned-output guarantees. -/
theorem validators_postconditions_witness :
    meteoNoMissing (validate_meteo_data [⟨0, some 10, some 11, some 12⟩]) = true
    ∧ meteoInRange (validate_meteo_data [⟨0, some 10, some 11, some 12⟩]) = true
    ∧ prixInRange (validate_prix_data [⟨0, some 10⟩]) = true :=
  ⟨((validators_postconditions [⟨0, some 10, some 11, some 12⟩]
      [⟨0, some 10⟩]).2.2.2.2.2.1 (by decide) (by decide) (by decide)
        (by decide)).1,
   ((validators_postconditions [⟨0, some 10, some 11, some 12⟩]
      [⟨0, some 10⟩]).2.2.2.2.2.1 (by decide) (by decide) (by decide)
        (by decide)).2,
   (validators_postconditions [⟨0, some 10, some 11, some 12⟩]
      [⟨0, some 10⟩]).2.2.2.2.2.2 (by decide)⟩

/-- A date is a group key exactly when some event carries it. -/
lemma groupKeys_mem (events : List FerieRow) (d : Nat) :
    d ∈ groupKeys events ↔ ∃ r ∈ events, r.date = d := by
  rw [groupKeys, List.mem_dedup, (List.perm_insertionSort _ _).mem_iff,
    List.mem_map]

/-- Searching a list of keys for a given key finds the key itself exactly
when it is present. -/
lemma find?_key_self (d : Nat) :
    ∀ l : List Nat, l.find? (fun k => decide (k = d))
      = if d ∈ l then some d else none := by
  intro l
  induction l with
  | nil => simp
  | cons k ks ih =>
    by_cases hk : k = d
    · rw [@List.find?_cons_of_pos _ (fun x => decide (x = d)) k ks
        (by simp [hk])]
      simp [hk, List.mem_cons]
    · rw [@List.find?_cons_of_neg _ (fun x => decide (x = d)) k ks
        (by simp [hk]), ih]
      by_cases hd : d ∈ ks
      · simp [hd, List.mem_cons]
      · simp [hd, List.mem_cons, Ne.symm hk]

/-- Characterization of finding a date in the per-day aggregate
`df_feries_agg`: when some event carries the date, the lookup returns the
group OR of the holiday and vacation indicators and the first non-null
label of the group; otherwise it returns nothing. -/
lemma groupAgg_find (events : List FerieRow) (d : Nat) :
    (groupAgg events).find? (fun a => a.date = d) =
      if events.any (fun r => r.date = d) = true then
        some ⟨d,
          (events.filter (fun r => r.date = d)).any
            (fun r => isFerieType r.type),
          (events.filter (fun r => r.date = d)).any
            (fun r => r.type == "vacances"),
          ((events.filter (fun r => r.date = d)).filterMap
            (fun r => r.nom_ferie)).head?⟩
      else none := by
  rw [groupAgg, List.find?_map]
  have hcomp : ((fun a : AggRow => decide (a.date = d)) ∘ fun k : Nat =>
      (⟨k, (events.filter (fun r => r.date = k)).any
          (fun r => isFerieType r.type),
        (events.filter (fun r => r.date = k)).any
          (fun r => r.type == "vacances"),
        ((events.filter (fun r => r.date = k)).filterMap
          (fun r => r.nom_ferie)).head?⟩ : AggRow))
      = fun k : Nat => decide (k = d) := by
    funext k
    simp
  rw [hcomp, find?_key_self]
  by_cases hmem : d ∈ groupKeys events
  · rw [if_pos hmem]
    have hany : events.any (fun r => r.date = d) = true := by
      rw [List.any_eq_true]
      obtain ⟨r, hr, hrd⟩ := (groupKeys_mem events d).1 hmem
      exact ⟨r, hr, by simp [hrd]⟩
    rw [if_pos hany]
    rfl
  · rw [if_neg hmem]
    have hany : ¬ events.any (fun r => r.date = d) = true := by
      rw [List.any_eq_true]
      intro ⟨r, hr, hrd⟩
      simp only [decide_eq_true_eq] at hrd
      exact hmem ((groupKeys_mem events d).2 ⟨r, hr, hrd⟩)
    rw [if_neg hany]
    rfl

/-- The datetime column of the merged dense calendar is exactly the
datetime column of the hourly skeleton: the left join with the
(unique-keyed) aggregate neither drops nor duplicates rows. -/
lemma mergeCal_map_datetime (cal : List HourRow) (events : List FerieRow) :
    (merge_calendar_with_feries cal events).map (fun r => r.datetime)
      = cal.map (fun c => c.datetime) := by
  rw [merge_calendar_with_feries, List.map_map]
  refine List.map_congr_left ?_
  intro c _
  simp only [Function.comp]
  cases h : (groupAgg events).find? (fun a => a.date = c.date) <;> simp [h]

/-- Every row of the merged dense calendar comes from a skeleton hour and
carries the per-day OR of the holiday and vacation indicators of the
events of its date, and the first non-null label (empty when there is
none). -/
lemma mergeCal_mem (cal : List HourRow) (events : List FerieRow) :
    ∀ r ∈ merge_calendar_with_feries cal events,
      ∃ c ∈ cal, r.datetime = c.datetime ∧ r.date = c.date
        ∧ r.est_ferie = (events.filter (fun ev => ev.date = c.date)).any
            (fun ev => isFerieType ev.type)
        ∧ r.est_vacances = (events.filter (fun ev => ev.date = c.date)).any
            (fun ev => ev.type == "vacances")
        ∧ r.nom_ferie = (((events.filter (fun ev => ev.date = c.date)).filterMap
            (fun ev => ev.nom_ferie)).head?).getD "" := by
  intro r hr
  rw [merge_calendar_with_feries, List.mem_map] at hr
  obtain ⟨c, hc, rfl⟩ := hr
  refine ⟨c, hc, ?_⟩
  rw [groupAgg_find]
  by_cases hany : events.any (fun ev => ev.date = c.date) = true
  · rw [if_pos hany]
    exact ⟨rfl, rfl, rfl, rfl, rfl⟩
  · rw [if_neg hany]
    have hfil : events.filter (fun ev => ev.date = c.date) = [] := by
      rw [List.filter_eq_nil_iff]
      intro ev hev hdec
      exact hany (List.any_eq_true.2 ⟨ev, hev, hdec⟩)
    rw [hfil]
    exact ⟨rfl, rfl, rfl, rfl, rfl⟩

/-- The claim C4 statement on the Calendar Expander: for every event list
(including the empty one) and every day range, the expanded calendar has
exactly one row per hour of the inclusive range — its datetime column is
the gapless and duplicate-free hour sequence, its row count is `24` times
the number of days (so `48` over the two-day range starting 2026-01-01) —
and an hour whose day matches no event carries
`est_ferie=false, est_vacances=false, nom_ferie=""`. -/
theorem calendar_expansion_dense (events : List FerieRow) (s e : Nat) :
    (merge_calendar_with_feries (create_hourly_calendar s e) events).map
        (fun r => r.datetime) = List.range' (24 * s) (24 * (e + 1 - s))
    ∧ (merge_calendar_with_feries (create_hourly_calendar s e) events).length
        = 24 * (e + 1 - s)
    ∧ ((merge_calendar_with_feries (create_hourly_calendar s e) events).map
        (fun r => r.datetime)).Nodup
    ∧ (merge_calendar_with_feries (create_hourly_calendar 0 1) events).length
        = 48
    ∧ ∀ r ∈ merge_calendar_with_feries (create_hourly_calendar s e) events,
        (∀ ev ∈ events, ev.date ≠ r.date) →
        r.est_ferie = false ∧ r.est_vacances = false ∧ r.nom_ferie = "" := by
  have hmap : ∀ s' e' : Nat,
      (merge_calendar_with_feries (create_hourly_calendar s' e') events).map
        (fun r => r.datetime) = List.range' (24 * s') (24 * (e' + 1 - s')) := by
    intro s' e'
    rw [mergeCal_map_datetime, create_hourly_calendar, List.map_map]
    have hid : ((fun c : HourRow => c.datetime) ∘
        fun h => (⟨h, h / 24⟩ : HourRow)) = id := rfl
    rw [hid, List.map_id]
    congr 1
    omega
  have hlen : ∀ s' e' : Nat,
      (merge_calendar_with_feries (create_hourly_calendar s' e') events).length
        = 24 * (e' + 1 - s') := by
    intro s' e'
    have hc := congrArg List.length (hmap s' e')
    simpa [List.length_map, List.length_range'] using hc
  refine ⟨hmap s e, hlen s e, ?_, ?_, ?_⟩
  · rw [hmap]
    exact List.nodup_range' _ _
  · rw [hlen]
  · intro r hr hnone
    obtain ⟨c, _, _, hdate, hf, hv, hn⟩ := mergeCal_mem _ _ r hr
    have hfil : events.filter (fun ev => ev.date = c.date) = [] := by
      rw [List.filter_eq_nil_iff]
      intro ev hev hdec
      simp only [decide_eq_true_eq] at hdec
      exact hnone ev hev (hdate ▸ hdec)
    rw [hfil] at hf hv hn
    simp only [List.any_nil] at hf hv
    simp only [List.filterMap_nil, List.head?_nil] at hn
    exact ⟨hf, hv, hn⟩

/-- Witness for C4 at the empty event list over the range of the spec
example: 48 rows, one per hour, and the first row would carry default
flags for any day without events. -/
theorem calendar_expansion_dense_witness :
    (merge_calendar_with_feries (create_hourly_calendar 0 1) []).length = 48
    ∧ (merge_calendar_with_feries (create_hourly_calendar 0 1) []).map
        (fun r => r.datetime) = List.range' 0 48 :=
  ⟨(calendar_expansion_dense [] 0 1).2.2.2.1,
   (calendar_expansion_dense [] 0 1).1⟩

/-- The claim C6 statement on per-day aggregation: in the merged dense
calendar, a row's `est_ferie` holds exactly when some event of its day
has type `fixe` or `mobile`, its `est_vacances` exactly when some event
of its day has type `vacances`, and its `nom_ferie` is the first
non-null label of its day in row order (empty when there is none). -/
theorem calendar_day_aggregation (cal : List HourRow) (events : List FerieRow) :
    ∀ r ∈ merge_calendar_with_feries cal events,
      (r.est_ferie = true ↔ ∃ ev ∈ events, ev.date = r.date
          ∧ (ev.type = "fixe" ∨ ev.type = "mobile"))
      ∧ (r.est_vacances = true ↔ ∃ ev ∈ events, ev.date = r.date
          ∧ ev.type = "vacances")
      ∧ r.nom_ferie = (((events.filter (fun ev => ev.date = r.date)).filterMap
          (fun ev => ev.nom_ferie)).head?).getD "" := by
  intro r hr
  obtain ⟨c, _, _, hdate, hf, hv, hn⟩ := mergeCal_mem _ _ r hr
  rw [← hdate] at hf hv hn
  refine ⟨?_, ?_, hn⟩
  · rw [hf, List.any_eq_true]
    constructor
    · rintro ⟨ev, hev, htype⟩
      obtain ⟨hev', hd⟩ := List.mem_filter.1 hev
      simp only [decide_eq_true_eq] at hd
      simp only [isFerieType, Bool.or_eq_true, beq_iff_eq] at htype
      exact ⟨ev, hev', hd, htype⟩
    · rintro ⟨ev, hev, hd, htype⟩
      refine ⟨ev, List.mem_filter.2 ⟨hev, by simp [hd]⟩, ?_⟩
      simp only [isFerieType, Bool.or_eq_true, beq_iff_eq]
      exact htype
  · rw [hv, List.any_eq_true]
    constructor
    · rintro ⟨ev, hev, htype⟩
      obtain ⟨hev', hd⟩ := List.mem_filter.1 hev
      simp only [decide_eq_true_eq] at hd
      simp only [beq_iff_eq] at htype
      exact ⟨ev, hev', hd, htype⟩
    · rintro ⟨ev, hev, hd, htype⟩
      exact ⟨ev, List.mem_filter.2 ⟨hev, by simp [hd]⟩, by simp [htype]⟩

/-- Witness for C6: on a one-hour calendar with a single `fixe` event
carrying label `X`, the merged row `⟨0, 0, true, false, "X"⟩` satisfies
the aggregation characterization. -/
theorem calendar_day_aggregation_witness :
    (((⟨0, 0, true, false, "X"⟩ : CalRow).est_ferie = true ↔
        ∃ ev ∈ [(⟨0, some "X", "fixe"⟩ : FerieRow)],
          ev.date = (⟨0, 0, true, false, "X"⟩ : CalRow).date
          ∧ (ev.type = "fixe" ∨ ev.type = "mobile"))
      ∧ ((⟨0, 0, true, false, "X"⟩ : CalRow).est_vacances = true ↔
        ∃ ev ∈ [(⟨0, some "X", "fixe"⟩ : FerieRow)],
          ev.date = (⟨0, 0, true, false, "X"⟩ : CalRow).date
          ∧ ev.type = "vacances")
      ∧ (⟨0, 0, true, false, "X"⟩ : CalRow).nom_ferie =
          ((([(⟨0, some "X", "fixe"⟩ : FerieRow)].filter
              (fun ev => ev.date = (⟨0, 0, true, false, "X"⟩ : CalRow).date)).filterMap
            (fun ev => ev.nom_ferie)).head?).getD "") :=
  calendar_day_aggregation [⟨0, 0⟩] [⟨0, some "X", "fixe"⟩]
    ⟨0, 0, true, false, "X"⟩ (by decide)

/-- The claim C10 statement on vacation-range expansion: a range expands
to one `vacances` event per day exactly when its start is not after its
end (and to nothing otherwise); the hard-coded Noël range
`("2026-12-19", "2026-01-03")` has its end before its start and expands
to nothing; consequently every event the enrichment adds to the input
frame dates before 2026-12-19, and any hour on or after 2026-12-19
marked `est_vacances` in the merged calendar owes it to a `vacances` row
of the input frame, never to the generated ranges. -/
theorem vacances_noel_range_contributes_nothing :
    dateRangeD (doy 12 19) (doy 1 3) = []
    ∧ vacancesRowsFor (doy 12 19, doy 1 3, "Vacances de Noël") = []
    ∧ (∀ s e : Nat, ∀ nom : String, s ≤ e →
        (vacancesRowsFor (s, e, nom)).map (fun r => r.date)
            = List.range' s (e + 1 - s)
        ∧ (vacancesRowsFor (s, e, nom)).length = e + 1 - s
        ∧ ∀ r ∈ vacancesRowsFor (s, e, nom),
            r.type = "vacances" ∧ r.nom_ferie = some nom)
    ∧ (∀ s e : Nat, ∀ nom : String, e < s → vacancesRowsFor (s, e, nom) = [])
    ∧ (∀ df : List FerieRow, ∀ r ∈ enrich_with_vacances_scolaires df,
        r ∉ df → r.date < doy 12 19)
    ∧ (∀ (df : List FerieRow) (cal : List HourRow),
        ∀ r ∈ merge_calendar_with_feries cal
            (enrich_with_vacances_scolaires df),
          doy 12 19 ≤ r.date → r.est_vacances = true →
          ∃ ev ∈ df, ev.date = r.date ∧ ev.type = "vacances") := by
  have hgen : ∀ df : List FerieRow, ∀ r ∈ enrich_with_vacances_scolaires df,
      r ∉ df → r.date < doy 12 19 := by
    intro df r hr hnot
    rw [enrich_with_vacances_scolaires,
      (List.perm_insertionSort _ _).mem_iff, List.mem_append] at hr
    rcases hr with h | h
    · exact absurd h hnot
    · have hall : (vacances2026.flatMap vacancesRowsFor).all
          (fun x => decide (x.date < doy 12 19)) = true := by decide
      have := List.all_eq_true.1 hall r h
      simpa using this
  refine ⟨by decide, by decide, ?_, ?_, hgen, ?_⟩
  · intro s e nom _
    refine ⟨?_, ?_, ?_⟩
    · rw [vacancesRowsFor, List.map_map]
      have hid : ((fun r : FerieRow => r.date) ∘ fun d =>
          (⟨d, some nom, "vacances"⟩ : FerieRow)) = id := rfl
      rw [hid, List.map_id, dateRangeD]
    · rw [vacancesRowsFor, List.length_map, dateRangeD, List.length_range']
    · intro r hr
      rw [vacancesRowsFor, List.mem_map] at hr
      obtain ⟨d, _, rfl⟩ := hr
      exact ⟨rfl, rfl⟩
  · intro s e nom hes
    have hzero : e + 1 - s = 0 := by omega
    rw [vacancesRowsFor, dateRangeD, hzero]
    rfl
  · intro df cal r hr hge hvac
    obtain ⟨c, _, _, hdate, _, hv, _⟩ := mergeCal_mem _ _ r hr
    rw [← hdate] at hv
    rw [hv, List.any_eq_true] at hvac
    obtain ⟨ev, hev, htype⟩ := hvac
    obtain ⟨hev', hd⟩ := List.mem_filter.1 hev
    simp only [decide_eq_true_eq] at hd
    simp only [beq_iff_eq] at htype
    by_cases hin : ev ∈ df
    · exact ⟨ev, hin, hd, htype⟩
    · have := hgen df ev hev' hin
      omega

/-- Witness for C10: the winter-vacation range expands to one event per
day of its inclusive range, and its rows are typed `vacances`. -/
theorem vacances_noel_range_contributes_nothing_witness :
    (vacancesRowsFor (doy 2 21, doy 3 8, "Vacances d\x27hiver")).length
        = doy 3 8 + 1 - doy 2 21
    ∧ vacancesRowsFor (doy 12 19, doy 1 3, "Vacances de Noël") = [] :=
  ⟨(vacances_noel_range_contributes_nothing.2.2.1 (doy 2 21) (doy 3 8)
      "Vacances d\x27hiver" (by decide)).2.1,
   vacances_noel_range_contributes_nothing.2.1⟩

/-- In a frame with pairwise distinct keys, at most one row matches a
given key. -/
lemma filter_key_len_le_one {β : Type} (key : β → Nat) :
    ∀ l : List β, (l.map key).Nodup →
      ∀ d, (l.filter (fun m => key m == d)).length ≤ 1 := by
  intro l
  induction l with
  | nil => simp
  | cons m ms ih =>
    intro hnd d
    rw [List.map_cons, List.nodup_cons] at hnd
    obtain ⟨hnotin, hnd'⟩ := hnd
    rw [List.filter_cons]
    by_cases hm : (key m == d) = true
    · rw [if_pos hm]
      have hnil : ms.filter (fun x => key x == d) = [] := by
        rw [List.filter_eq_nil_iff]
        intro x hx hxd
        apply hnotin
        rw [List.mem_map]
        refine ⟨x, hx, ?_⟩
        simp only [beq_iff_eq] at hm hxd
        exact hxd.trans hm.symm
      rw [hnil]
      simp
    · rw [if_neg hm]
      exact ih hnd' d

/-- A concatenation of blocks of at most one element is at most as long
as the block list. -/
lemma length_flatMap_le {α β : Type} (l : List α) (f : α → List β)
    (h : ∀ a ∈ l, (f a).length ≤ 1) : (l.flatMap f).length ≤ l.length := by
  induction l with
  | nil => simp
  | cons a l ih =>
    rw [List.flatMap_cons, List.length_append, List.length_cons]
    have h1 := h a (List.mem_cons_self _ _)
    have h2 := ih (fun x hx => h x (List.mem_cons_of_mem _ hx))
    omega

/-- A concatenation of blocks of exactly one element is exactly as long
as the block list. -/
lemma length_flatMap_eq {α β : Type} (l : List α) (f : α → List β)
    (h : ∀ a ∈ l, (f a).length = 1) : (l.flatMap f).length = l.length := by
  induction l with
  | nil => simp
  | cons a l ih =>
    rw [List.flatMap_cons, List.length_append, List.length_cons]
    have h1 := h a (List.mem_cons_self _ _)
    have h2 := ih (fun x hx => h x (List.mem_cons_of_mem _ hx))
    omega

/-- An hour appears in the first fusion result exactly when it appears in
both the consumption and the weather table. -/
lemma innerMerge_mem_dt (conso : List ConsoRow) (meteo : List MeteoDbRow) :
    ∀ h : Nat,
      h ∈ (innerMergeConsoMeteo conso meteo).map (fun r => r.datetime)
      ↔ (h ∈ conso.map (fun c => c.datetime)
          ∧ h ∈ meteo.map (fun m => m.datetime)) := by
  intro h
  constructor
  · intro hmem
    rw [List.mem_map] at hmem
    obtain ⟨r, hr, rfl⟩ := hmem
    rw [innerMergeConsoMeteo, List.mem_flatMap] at hr
    obtain ⟨c, hc, hr2⟩ := hr
    rw [List.mem_map] at hr2
    obtain ⟨m, hm, rfl⟩ := hr2
    obtain ⟨hm', hmd⟩ := List.mem_filter.1 hm
    constructor
    · rw [List.mem_map]
      exact ⟨c, hc, rfl⟩
    · rw [List.mem_map]
      refine ⟨m, hm', ?_⟩
      simp only [beq_iff_eq] at hmd
      exact hmd
  · rintro ⟨hc, hm⟩
    rw [List.mem_map] at hc hm
    obtain ⟨c, hc', rfl⟩ := hc
    obtain ⟨m, hm', hmd⟩ := hm
    rw [List.mem_map]
    refine ⟨⟨c.datetime, c.mw_conso, m.temperature, m.vent,
      m.ensoleillement⟩, ?_, rfl⟩
    rw [innerMergeConsoMeteo, List.mem_flatMap]
    refine ⟨c, hc', ?_⟩
    rw [List.mem_map]
    exact ⟨m, List.mem_filter.2 ⟨hm', by simp [hmd]⟩, rfl⟩

/-- With unique weather keys, the datetimes of the first fusion result
are a sublist of the consumption datetimes. -/
lemma innerMerge_dts_sublist (meteo : List MeteoDbRow)
    (hm : (meteo.map (fun m => m.datetime)).Nodup) :
    ∀ conso : List ConsoRow,
      ((innerMergeConsoMeteo conso meteo).map (fun r => r.datetime)).Sublist
        (conso.map (fun c => c.datetime)) := by
  intro conso
  induction conso with
  | nil => simp [innerMergeConsoMeteo]
  | cons c cs ih =>
    rw [innerMergeConsoMeteo, List.flatMap_cons, List.map_append]
    rw [innerMergeConsoMeteo] at ih
    cases hfc : meteo.filter (fun m => m.datetime == c.datetime) with
    | nil =>
      simp only [List.map_nil, List.nil_append, List.map_cons]
      exact ih.cons _
    | cons m ms =>
      have hle := filter_key_len_le_one (fun m : MeteoDbRow => m.datetime)
        meteo hm c.datetime
      rw [hfc] at hle
      simp only [List.length_cons] at hle
      have hms : ms = [] := List.length_eq_zero.1 (by omega)
      subst hms
      simp only [List.map_cons, List.map_nil, List.cons_append,
        List.nil_append]
      exact ih.cons₂ _

/-- With unique calendar keys, the left join with the calendar produces
exactly one row per fused consumption/weather row. -/
lemma leftMerge_length (rows : List Merge1Row) (cal : List CalRow)
    (hcal : (cal.map (fun k => k.datetime)).Nodup) :
    (leftMergeCalendrier rows cal).length = rows.length := by
  rw [leftMergeCalendrier]
  apply length_flatMap_eq
  intro r _
  cases hfc : cal.filter (fun k => k.datetime == r.datetime) with
  | nil => simp
  | cons k ks =>
    have hle := filter_key_len_le_one (fun k : CalRow => k.datetime)
      cal hcal r.datetime
    rw [hfc] at hle
    simp only [List.length_cons] at hle
    have hks : ks = [] := List.length_eq_zero.1 (by omega)
    subst hks
    simp

/-- The claim C5 statement on the Fusion Engine: with unique timestamps
on each side, the first fusion keeps exactly the hours present in both
the consumption and the weather table, its row count is bounded by the
smaller table, the full transform output is bounded the same way, and
the spec example `{0,1,2} ⋈ {1,2}` yields exactly the rows for hours
1 and 2. -/
theorem fusion_inner_join_strict (conso : List ConsoRow)
    (meteo : List MeteoDbRow) (cal : List CalRow)
    (hc : (conso.map (fun c => c.datetime)).Nodup)
    (hm : (meteo.map (fun m => m.datetime)).Nodup)
    (hcal : (cal.map (fun k => k.datetime)).Nodup) :
    (∀ h : Nat,
      h ∈ (innerMergeConsoMeteo conso meteo).map (fun r => r.datetime)
      ↔ (h ∈ conso.map (fun c => c.datetime)
          ∧ h ∈ meteo.map (fun m => m.datetime)))
    ∧ (innerMergeConsoMeteo conso meteo).length
        ≤ min conso.length meteo.length
    ∧ (transform_data conso meteo cal).length
        ≤ min conso.length meteo.length
    ∧ (innerMergeConsoMeteo [⟨0, 100⟩, ⟨1, 110⟩, ⟨2, 120⟩]
        [⟨1, 5, 10, 50⟩, ⟨2, 6, 11, 60⟩]).map (fun r => r.datetime)
        = [1, 2] := by
  have hsub := innerMerge_dts_sublist meteo hm conso
  have hlen1 : (innerMergeConsoMeteo conso meteo).length ≤ conso.length := by
    have := hsub.length_le
    simpa [List.length_map] using this
  have hnodup : ((innerMergeConsoMeteo conso meteo).map
      (fun r => r.datetime)).Nodup := hc.sublist hsub
  have hsubset : ((innerMergeConsoMeteo conso meteo).map
      (fun r => r.datetime)) ⊆ meteo.map (fun m => m.datetime) := by
    intro h hmem
    exact ((innerMerge_mem_dt conso meteo h).1 hmem).2
  have hlen2 : (innerMergeConsoMeteo conso meteo).length ≤ meteo.length := by
    have := (List.subperm_of_subset hnodup hsubset).length_le
    simpa [List.length_map] using this
  have hboundInner : (innerMergeConsoMeteo conso meteo).length
      ≤ min conso.length meteo.length := le_min hlen1 hlen2
  refine ⟨innerMerge_mem_dt conso meteo, hboundInner, ?_, by decide⟩
  have hm2 : (leftMergeCalendrier (innerMergeConsoMeteo conso meteo)
      cal).length = (innerMergeConsoMeteo conso meteo).length :=
    leftMerge_length _ _ hcal
  calc (transform_data conso meteo cal).length
      ≤ (innerMergeConsoMeteo conso meteo).length := by
        simp only [transform_data, List.length_map]
        by_cases hmiss : ((leftMergeCalendrier
            (innerMergeConsoMeteo conso meteo) cal).map addFeatures).any
              rowHasMissing = true
        · rw [if_pos hmiss]
          calc (((leftMergeCalendrier (innerMergeConsoMeteo conso meteo)
                cal).map addFeatures).filter
                  (fun r => !rowHasMissing r)).length
              ≤ ((leftMergeCalendrier (innerMergeConsoMeteo conso meteo)
                cal).map addFeatures).length := List.length_filter_le _ _
            _ = (innerMergeConsoMeteo conso meteo).length := by
                rw [List.length_map, hm2]
        · rw [if_neg hmiss, List.length_map, hm2]
    _ ≤ min conso.length meteo.length := hboundInner

/-- Witness for C5: the spec example tables with unique timestamps — the
fused datetimes are exactly the common hours 1, 2 and the transform
output respects the size bound. -/
theorem fusion_inner_join_strict_witness :
    (innerMergeConsoMeteo [⟨0, 100⟩, ⟨1, 110⟩, ⟨2, 120⟩]
        [⟨1, 5, 10, 50⟩, ⟨2, 6, 11, 60⟩]).map (fun r => r.datetime) = [1, 2]
    ∧ (transform_data [⟨0, 100⟩, ⟨1, 110⟩, ⟨2, 120⟩]
        [⟨1, 5, 10, 50⟩, ⟨2, 6, 11, 60⟩] []).length
        ≤ min (List.length [(⟨0, 100⟩ : ConsoRow), ⟨1, 110⟩, ⟨2, 120⟩])
            (List.length [(⟨1, 5, 10, 50⟩ : MeteoDbRow), ⟨2, 6, 11, 60⟩]) :=
  ⟨(fusion_inner_join_strict [⟨0, 100⟩, ⟨1, 110⟩, ⟨2, 120⟩]
      [⟨1, 5, 10, 50⟩, ⟨2, 6, 11, 60⟩] [] (by decide) (by decide)
      (by decide)).2.2.2,
   (fusion_inner_join_strict [⟨0, 100⟩, ⟨1, 110⟩, ⟨2, 120⟩]
      [⟨1, 5, 10, 50⟩, ⟨2, 6, 11, 60⟩] [] (by decide) (by decide)
      (by decide)).2.2.1⟩

/-- The claim C8 statement on missing upstream tables: in any run whose
`consommation` table is readable but whose `meteo` or `calendrier_feries`
table is not, extraction yields the `(None, None, None)` triple, the run
returns failure (`False`, exit code 1) with the database completely
unchanged — in particular no fused table is written — and the printed
messages name the producing script to run first. -/
theorem pipeline_missing_upstream_aborts (db : Database)
    (hc : db.consommation.isSome = true)
    (hmc : db.meteo = none ∨ db.calendrier_feries = none) :
    ∃ hint : String,
      extract_data db = Except.ok (none, none, none, [hint])
      ∧ run_etl_pipeline db
          = Except.ok (false, db, [hint, "ERREUR: Données source manquantes"])
      ∧ (hint = "Exécuter d\x27abord: python src/collect_meteo.py"
          ∨ hint = "Exécuter d\x27abord: python src/load_jours_feries.py") := by
  obtain ⟨dfc, hdfc⟩ := Option.isSome_iff_exists.1 hc
  rcases hmc with hmet | hcal
  · refine ⟨"Exécuter d\x27abord: python src/collect_meteo.py", ?_, ?_,
      Or.inl rfl⟩
    · rw [extract_data, hdfc, hmet]
    · rw [run_etl_pipeline, extract_data, hdfc, hmet]
      rfl
  · cases hmet : db.meteo with
    | none =>
      refine ⟨"Exécuter d\x27abord: python src/collect_meteo.py", ?_, ?_,
        Or.inl rfl⟩
      · rw [extract_data, hdfc, hmet]
      · rw [run_etl_pipeline, extract_data, hdfc, hmet]
        rfl
    | some dfm =>
      refine ⟨"Exécuter d\x27abord: python src/load_jours_feries.py", ?_, ?_,
        Or.inr rfl⟩
      · rw [extract_data, hdfc, hmet, hcal]
      · rw [run_etl_pipeline, extract_data, hdfc, hmet, hcal]
        rfl

/-- Witness for C8: a database with a consumption table but no weather
table makes the run fail without touching the database. -/
theorem pipeline_missing_upstream_aborts_witness :
    ∃ hint : String,
      extract_data ⟨some [], none, none, [], []⟩
          = Except.ok (none, none, none, [hint])
      ∧ run_etl_pipeline ⟨some [], none, none, [], []⟩
          = Except.ok (false, ⟨some [], none, none, [], []⟩,
              [hint, "ERREUR: Données source manquantes"])
      ∧ (hint = "Exécuter d\x27abord: python src/collect_meteo.py"
          ∨ hint = "Exécuter d\x27abord: python src/load_jours_feries.py") :=
  pipeline_missing_upstream_aborts ⟨some [], none, none, [], []⟩ rfl
    (Or.inl rfl)
